import Mathlib

/-!
Shallow embedding of `BridgeEmulator/lights/protocols/virtual.py`.

The source implements a composite ("virtual") light: `set_light` fans a state
delta out to the linked child lights, batching the outbound HTTP PUTs by child
IP address; `get_light_state` fans child state back in, batching the HTTP GETs
by IP address, refreshing each child's cached state from the response, and
folding all children's cached states into the parent's state.

Modelling conventions:
* Python dicts holding light state are modelled as a record of optional
  fields, one per recognized key (`none` = key absent).
* The global registry `bridgeConfig.yaml_config["lights"]` is modelled as a
  function `Conf := String → Option Light`; in-place mutation of a child's
  `.state` becomes a functional update of the registry at that child's id.
* The network is modelled by oracles: `putOk : String → Bool` tells whether
  the single PUT to an address succeeds (no exception), and
  `net : String → Option GetResult` gives the parsed JSON body of the GET to
  an address (`none` = timeout / HTTP error / malformed body, i.e. the
  `except` branch).
* Each function also returns the list of outbound requests it issued, so
  that batching behaviour is observable.
* `int(total_bri / child_count)` (float division then truncation toward
  zero) is modelled as exact truncated integer division; the float rounding
  is exact for the integer magnitudes a bri value can take.
-/

namespace Virtual

/-- A light's mutable `state` dict.  Recognized keys from the source
(lines 48 and 118): `on`, `bri`, `hue`, `sat`, `xy`, `ct`, `colormode`,
`reachable`.  A `none` field models an absent key. -/
structure LightState where
  on_ : Option Bool := none
  bri : Option Int := none
  hue : Option Int := none
  sat : Option Int := none
  xy : Option (Rat × Rat) := none
  ct : Option Int := none
  colormode : Option String := none
  reachable : Option Bool := none
  deriving DecidableEq, Repr

/-- The `data` argument of `set_light`: a partial state delta.  Only the
seven recognized command keys (line 48) matter; the copy loop ignores
anything else. -/
structure Delta where
  on_ : Option Bool := none
  bri : Option Int := none
  hue : Option Int := none
  sat : Option Int := none
  xy : Option (Rat × Rat) := none
  ct : Option Int := none
  colormode : Option String := none
  deriving DecidableEq, Repr

/-- A light object.  `protocol_cfg` is a dict in the source; the three keys
this module reads (`linked_lights`, `ip`, `light_nr`) are modelled as
optional fields. -/
structure Light where
  name : String := ""
  protocol_cfg_linked_lights : Option (List String) := none
  protocol_cfg_ip : Option String := none
  protocol_cfg_light_nr : Option Int := none
  state : LightState := {}
  deriving DecidableEq, Repr

/-- The registry `bridgeConfig.yaml_config["lights"]` restricted to lookup:
`conf cid` models `conf["lights"].get(cid)`. -/
abbrev Conf := String → Option Light

/-- Association-list lookup; models Python dict lookup for the dicts whose
contents we must track as ordered key/value lists. -/
def alookup {α β : Type} [DecidableEq α] : List (α × β) → α → Option β
  | [], _ => none
  | (k, v) :: rest, a => if k = a then some v else alookup rest a

/-- Ordered-dict update: if `k` is present apply `f` to its value in place,
else append `(k, f dflt)`.  Models the Python idiom
`if k not in d: d[k] = dflt` followed by an in-place update of `d[k]`. -/
def dict_upd {α β : Type} [DecidableEq α] (m : List (α × β)) (k : α) (dflt : β)
    (f : β → β) : List (α × β) :=
  match m with
  | [] => [(k, f dflt)]
  | (k', b) :: rest =>
    if k' = k then (k', f b) :: rest else (k', b) :: dict_upd rest k dflt f

/-- Lines 36-41 and 95-99: read `ip` and `light_nr` from a child's
`protocol_cfg` and apply the Python truthiness test
`if not ip or not light_nr: continue` — a missing key, an empty address
string, or channel number 0 all disqualify the child from batching. -/
def endpoint_of (child : Light) : Option (String × Int) :=
  match child.protocol_cfg_ip, child.protocol_cfg_light_nr with
  | some ip, some ln => if ip = "" ∨ ln = 0 then none else some (ip, ln)
  | _, _ => none

/-- Endpoint of the child registered under `cid`, if that child resolves. -/
def child_endpoint (conf : Conf) (cid : String) : Option (String × Int) :=
  (conf cid).bind endpoint_of

/-- STEP A of `set_light` (lines 26-55): walk `linked_lights`, skip
unresolved children and children without a truthy endpoint, and collect
`batch_updates[ip]["lights"][light_nr] = sub_light_data`.  Since `Delta`
holds exactly the recognized keys, `sub_light_data` equals `data`. -/
def build_batch (conf : Conf) (child_ids : List String) (data : Delta) :
    List (String × List (Int × Delta)) :=
  child_ids.foldl (fun batch cid =>
    match conf cid with
    | none => batch
    | some child =>
      match endpoint_of child with
      | none => batch
      | some (ip, ln) => dict_upd batch ip [] (fun d => dict_upd d ln data (fun _ => data))) []

/-- Result of `set_light`: the updated parent light, and the PUT requests
issued (address plus per-channel payload), one list entry per request. -/
structure SetLightResult where
  light : Light
  requests : List (String × List (Int × Delta))

/-- Embedding of `set_light(light, data)`, lines 5-67.  If `linked_lights` is absent,
log and return (no side effects).  Otherwise mark the parent unreachable,
build the per-IP batch, and PUT each batch to `http://ip/state`; every
successful PUT sets the parent reachable, every failure is caught and
logged. -/
def set_light (conf : Conf) (putOk : String → Bool) (light : Light) (data : Delta) :
    SetLightResult :=
  match light.protocol_cfg_linked_lights with
  | none => ⟨light, []⟩
  | some child_ids =>
    let light1 : Light := { light with state := { light.state with reachable := some false } }
    let batch := build_batch conf child_ids data
    let finalReachable := batch.foldl (fun r g => if putOk g.1 then some true else r)
      (some false)
    ⟨{ light1 with state := { light1.state with reachable := finalReachable } }, batch⟩

/-- Parsed JSON body of a successful GET to `http://ip/state`:
`device_data.get("lights", {})`, a dict from channel number to a partial
state dict.  Channel keys are string-encoded integers in the wire format
and are looked up via `str(ln)`; we key directly by the integer. -/
structure GetResult where
  lights : List (Int × LightState)
  deriving DecidableEq, Repr

/-- Lines 118-124: copy every recognized key present in `sub_dict` into the
child's state, then, if the device omitted `reachable`, set it to `true`
(a successful read implies the device responded). -/
def update_from_sub (st sub : LightState) : LightState :=
  { on_ := if sub.on_.isSome then sub.on_ else st.on_,
    bri := if sub.bri.isSome then sub.bri else st.bri,
    hue := if sub.hue.isSome then sub.hue else st.hue,
    sat := if sub.sat.isSome then sub.sat else st.sat,
    xy := if sub.xy.isSome then sub.xy else st.xy,
    ct := if sub.ct.isSome then sub.ct else st.ct,
    colormode := if sub.colormode.isSome then sub.colormode else st.colormode,
    reachable := some (sub.reachable.getD true) }

/-- Registry update for `child_obj.state[key] = sub_dict[key]` (success
branch of the GET loop). -/
def update_child_from_response (conf : Conf) (cid : String) (sub : LightState) : Conf :=
  match conf cid with
  | none => conf
  | some child =>
    fun c => if c = cid then some { child with state := update_from_sub child.state sub }
      else conf c

/-- Registry update for `child_obj.state["reachable"] = False` (failure
branch of the GET loop, lines 128-130). -/
def mark_unreachable (conf : Conf) (cid : String) : Conf :=
  match conf cid with
  | none => conf
  | some child =>
    fun c =>
      if c = cid then some { child with state := { child.state with reachable := some false } }
      else conf c

/-- Lines 106-130: process one IP group.  On a successful GET, refresh every
child in the group from its channel's sub-dict (`{}` when the channel is
missing from the response); on failure, mark every child in the group
unreachable. -/
def process_ip_group (net : String → Option GetResult) (conf : Conf)
    (grp : String × List (String × Int)) : Conf :=
  match net grp.1 with
  | some res =>
    grp.2.foldl (fun c p => update_child_from_response c p.1
      ((alookup res.lights p.2).getD ({} : LightState))) conf
  | none =>
    grp.2.foldl (fun c p => mark_unreachable c p.1) conf

/-- Lines 90-103: group resolvable children with a truthy endpoint by IP:
`ip_map[ip].append((child, light_nr))`.  We record the child's registry id
instead of the object reference; the object itself is threaded through the
registry. -/
def build_ip_map (conf : Conf) (child_ids : List String) :
    List (String × List (String × Int)) :=
  child_ids.foldl (fun m cid =>
    match conf cid with
    | none => m
    | some child =>
      match endpoint_of child with
      | none => m
      | some (ip, ln) => dict_upd m ip [] (fun vs => vs ++ [(cid, ln)])) []

/-- Lines 134-151: the aggregation loop.  Returns
`(on_count, total_bri, reachable_count, child_count)`.  Every resolved
child increments `child_count`; `bri` is added only when present; `on` and
`reachable` count Python-truthy values (`state.get("on")`,
`state.get("reachable", False)`). -/
def agg_step (conf : Conf) (acc : Nat × Int × Nat × Nat) (cid : String) :
    Nat × Int × Nat × Nat :=
  match conf cid with
  | none => acc
  | some child =>
    ((if child.state.on_ = some true then acc.1 + 1 else acc.1),
     (match child.state.bri with
      | some b => acc.2.1 + b
      | none => acc.2.1),
     (if child.state.reachable = some true then acc.2.2.1 + 1 else acc.2.2.1),
     acc.2.2.2 + 1)

def agg_counts (conf : Conf) (child_ids : List String) : Nat × Int × Nat × Nat :=
  child_ids.foldl (agg_step conf) (0, 0, 0, 0)

/-- Python `int(total_bri / child_count)`: float division truncated toward
zero, exact at these magnitudes. -/
def int_div (a : Int) (b : Nat) : Int := Int.tdiv a (b : Int)

/-- Result of `get_light_state`: the registry after the per-child refreshes,
the updated parent light (whose `.state` is the returned value), and the
list of GET requests issued (one address per entry). -/
structure GetLightStateResult where
  conf : Conf
  light : Light
  requests : List String

/-- Embedding of `get_light_state(light)`, lines 69-161.  If `linked_lights` is absent,
return the parent's cached state unchanged.  Otherwise group the
children by IP, issue one GET per IP (refreshing or failure-marking the
group's children), then aggregate all resolved children's cached states
into the parent's state; the parent is written only when at least one
child resolved. -/
def get_light_state (conf : Conf) (net : String → Option GetResult) (light : Light) :
    GetLightStateResult :=
  match light.protocol_cfg_linked_lights with
  | none => ⟨conf, light, []⟩
  | some child_ids =>
    let ip_map := build_ip_map conf child_ids
    let conf2 := ip_map.foldl (process_ip_group net) conf
    let counts := agg_counts conf2 child_ids
    let light2 :=
      if 0 < counts.2.2.2 then
        { light with state := { light.state with
            on_ := some (decide (0 < counts.1)),
            bri := some (int_div counts.2.1 counts.2.2.2),
            reachable := some (decide (0 < counts.2.2.1)) } }
      else light
    ⟨conf2, light2, ip_map.map Prod.fst⟩

/-! ### Association-list lemmas -/

theorem alookup_dict_upd {α β : Type} [DecidableEq α] (m : List (α × β)) (k : α) (dflt : β)
    (f : β → β) (a : α) :
    alookup (dict_upd m k dflt f) a =
      if k = a then some (f ((alookup m k).getD dflt)) else alookup m a := by
  induction m with
  | nil =>
    by_cases hka : k = a <;> simp [dict_upd, alookup, hka]
  | cons p rest ih =>
    obtain ⟨k', b⟩ := p
    by_cases hk : k' = k
    · subst hk
      by_cases hka : k' = a <;> simp [dict_upd, alookup, hka]
    · by_cases hka : k' = a
      · subst hka
        have hk2 : ¬ k = k' := fun h => hk h.symm
        simp [dict_upd, alookup, hk, hk2]
      · simp [dict_upd, alookup, hk, hka, ih]

theorem keys_dict_upd {α β : Type} [DecidableEq α] (m : List (α × β)) (k : α) (dflt : β)
    (f : β → β) :
    (dict_upd m k dflt f).map Prod.fst =
      if k ∈ m.map Prod.fst then m.map Prod.fst else m.map Prod.fst ++ [k] := by
  induction m with
  | nil => simp [dict_upd]
  | cons p rest ih =>
    obtain ⟨k', b⟩ := p
    by_cases hk : k' = k
    · subst hk
      simp [dict_upd]
    · have hk2 : ¬ k = k' := fun h => hk h.symm
      by_cases hmem : k ∈ rest.map Prod.fst <;>
        simp [dict_upd, hk, hk2, ih, hmem, List.mem_cons]

theorem nodup_keys_dict_upd {α β : Type} [DecidableEq α] (m : List (α × β)) (k : α) (dflt : β)
    (f : β → β) (h : (m.map Prod.fst).Nodup) :
    ((dict_upd m k dflt f).map Prod.fst).Nodup := by
  rw [keys_dict_upd]
  split
  · exact h
  · rename_i hk
    simp [List.nodup_append, h, hk]

theorem alookup_isSome {α β : Type} [DecidableEq α] (m : List (α × β)) (a : α) :
    (alookup m a).isSome ↔ a ∈ m.map Prod.fst := by
  induction m with
  | nil => simp [alookup]
  | cons p rest ih =>
    obtain ⟨k, b⟩ := p
    by_cases hk : k = a
    · simp [alookup, hk]
    · have hk2 : ¬ a = k := fun h => hk h.symm
      simp [alookup, hk, hk2, ih]

theorem mem_alookup_of_nodup {α β : Type} [DecidableEq α] (m : List (α × β)) (a : α) (b : β)
    (hnd : (m.map Prod.fst).Nodup) (hm : (a, b) ∈ m) : alookup m a = some b := by
  induction m with
  | nil => simp at hm
  | cons p rest ih =>
    obtain ⟨k, v⟩ := p
    simp only [List.map_cons, List.nodup_cons] at hnd
    rcases List.mem_cons.mp hm with h | h
    · obtain ⟨hk, hv⟩ := Prod.mk.injEq .. |>.mp h.symm
      simp [alookup, hk, hv]
    · have hka : ¬ k = a := by
        intro hka
        exact hnd.1 (hka ▸ (List.mem_map.mpr ⟨(a, b), h, by simp [hka]⟩))
      simp [alookup, hka, ih hnd.2 h]

theorem alookup_mem {α β : Type} [DecidableEq α] (m : List (α × β)) (a : α) (b : β)
    (h : alookup m a = some b) : (a, b) ∈ m := by
  induction m with
  | nil => simp [alookup] at h
  | cons p rest ih =>
    obtain ⟨k, v⟩ := p
    by_cases hk : k = a
    · subst hk
      simp [alookup] at h
      simp [h]
    · simp [alookup, hk] at h
      exact List.mem_cons_of_mem _ (ih h)

/-! ### Characterization of the per-endpoint grouping

Both `build_batch` and `build_ip_map` are folds of the same shape: resolve
the child, read its truthy endpoint, and update an ordered dict at the
endpoint's address.  `ep_build` abstracts that shape and `ep_upds`
lists, in order, the (child id, channel) contributions made to one
address. -/

def ep_build {β : Type} (conf : Conf) (dflt : β) (upd : String → String → Int → β → β)
    (cids : List String) (m : List (String × β)) : List (String × β) :=
  cids.foldl (fun m cid =>
    match child_endpoint conf cid with
    | none => m
    | some (ip, ln) => dict_upd m ip dflt (upd cid ip ln)) m

def ep_upds (conf : Conf) (cids : List String) (a : String) : List (String × Int) :=
  cids.filterMap (fun cid =>
    match child_endpoint conf cid with
    | none => none
    | some (ip, ln) => if ip = a then some (cid, ln) else none)

theorem build_batch_eq_ep (conf : Conf) (cids : List String) (data : Delta) :
    build_batch conf cids data =
      ep_build conf [] (fun _ _ ln d => dict_upd d ln data (fun _ => data)) cids [] := by
  unfold build_batch ep_build
  congr 1
  funext batch cid
  cases h : conf cid with
  | none => simp [child_endpoint, h]
  | some child =>
    cases he : endpoint_of child with
    | none => simp [child_endpoint, h, he]
    | some pr => obtain ⟨ip, ln⟩ := pr; simp [child_endpoint, h, he]

theorem build_ip_map_eq_ep (conf : Conf) (cids : List String) :
    build_ip_map conf cids =
      ep_build conf [] (fun cid _ ln vs => vs ++ [(cid, ln)]) cids [] := by
  unfold build_ip_map ep_build
  congr 1
  funext m cid
  cases h : conf cid with
  | none => simp [child_endpoint, h]
  | some child =>
    cases he : endpoint_of child with
    | none => simp [child_endpoint, h, he]
    | some pr => obtain ⟨ip, ln⟩ := pr; simp [child_endpoint, h, he]

theorem ep_build_alookup {β : Type} (conf : Conf) (dflt : β)
    (upd : String → String → Int → β → β) (a : String) :
    ∀ (cids : List String) (m : List (String × β)),
    alookup (ep_build conf dflt upd cids m) a =
      match alookup m a with
      | some b => some ((ep_upds conf cids a).foldl (fun b u => upd u.1 a u.2 b) b)
      | none =>
        if ep_upds conf cids a = [] then none
        else some ((ep_upds conf cids a).foldl (fun b u => upd u.1 a u.2 b) dflt) := by
  intro cids
  induction cids with
  | nil =>
    intro m
    cases h : alookup m a <;> simp [ep_build, ep_upds, h]
  | cons c rest ih =>
    intro m
    cases hce : child_endpoint conf c with
    | none =>
      have hstep : ep_build conf dflt upd (c :: rest) m = ep_build conf dflt upd rest m := by
        simp [ep_build, hce]
      have hupds : ep_upds conf (c :: rest) a = ep_upds conf rest a := by
        simp [ep_upds, List.filterMap_cons, hce]
      rw [hstep, hupds, ih]
    | some pr =>
      obtain ⟨ip, ln⟩ := pr
      by_cases hip : ip = a
      · subst hip
        have hstep : ep_build conf dflt upd (c :: rest) m =
            ep_build conf dflt upd rest (dict_upd m ip dflt (upd c ip ln)) := by
          simp [ep_build, hce]
        have hupds : ep_upds conf (c :: rest) ip = (c, ln) :: ep_upds conf rest ip := by
          simp [ep_upds, List.filterMap_cons, hce]
        rw [hstep, ih, hupds, alookup_dict_upd]
        cases h : alookup m ip <;> simp [h, List.foldl_cons]
      · have hstep : ep_build conf dflt upd (c :: rest) m =
            ep_build conf dflt upd rest (dict_upd m ip dflt (upd c ip ln)) := by
          simp [ep_build, hce]
        have hupds : ep_upds conf (c :: rest) a = ep_upds conf rest a := by
          simp [ep_upds, List.filterMap_cons, hce, hip]
        rw [hstep, ih, hupds, alookup_dict_upd, if_neg hip]

theorem ep_build_alookup_nil {β : Type} (conf : Conf) (dflt : β)
    (upd : String → String → Int → β → β) (a : String) (cids : List String) :
    alookup (ep_build conf dflt upd cids []) a =
      if ep_upds conf cids a = [] then none
      else some ((ep_upds conf cids a).foldl (fun b u => upd u.1 a u.2 b) dflt) := by
  rw [ep_build_alookup]
  simp [alookup]

theorem ep_build_keys_nodup {β : Type} (conf : Conf) (dflt : β)
    (upd : String → String → Int → β → β) :
    ∀ (cids : List String) (m : List (String × β)),
    ((m.map Prod.fst).Nodup) → (((ep_build conf dflt upd cids m).map Prod.fst).Nodup) := by
  intro cids
  induction cids with
  | nil => intro m h; simpa [ep_build] using h
  | cons c rest ih =>
    intro m h
    cases hce : child_endpoint conf c with
    | none =>
      have hstep : ep_build conf dflt upd (c :: rest) m = ep_build conf dflt upd rest m := by
        simp [ep_build, hce]
      rw [hstep]; exact ih m h
    | some pr =>
      obtain ⟨ip, ln⟩ := pr
      have hstep : ep_build conf dflt upd (c :: rest) m =
          ep_build conf dflt upd rest (dict_upd m ip dflt (upd c ip ln)) := by
        simp [ep_build, hce]
      rw [hstep]
      exact ih _ (nodup_keys_dict_upd m ip dflt _ h)

theorem mem_ep_upds (conf : Conf) (cids : List String) (a : String) (cid : String) (ln : Int) :
    (cid, ln) ∈ ep_upds conf cids a ↔
      cid ∈ cids ∧ child_endpoint conf cid = some (a, ln) := by
  constructor
  · intro h
    obtain ⟨c, hc, hf⟩ := List.mem_filterMap.mp h
    cases hce : child_endpoint conf c with
    | none => simp [hce] at hf
    | some pr =>
      obtain ⟨ip, ln'⟩ := pr
      by_cases hip : ip = a
      · subst hip
        simp [hce] at hf
        obtain ⟨hc1, hc2⟩ := hf
        subst hc1; subst hc2
        exact ⟨hc, hce⟩
      · simp [hce, hip] at hf
  · rintro ⟨hc, hce⟩
    exact List.mem_filterMap.mpr ⟨cid, hc, by simp [hce]⟩

theorem snd_mem_ep_upds (conf : Conf) (cids : List String) (a : String) (ln : Int) :
    ln ∈ (ep_upds conf cids a).map Prod.snd ↔
      ∃ cid ∈ cids, child_endpoint conf cid = some (a, ln) := by
  constructor
  · intro h
    obtain ⟨u, hu, hln⟩ := List.mem_map.mp h
    obtain ⟨c, l⟩ := u
    obtain ⟨hc, hce⟩ := (mem_ep_upds conf cids a c l).mp hu
    have hl : l = ln := hln
    subst hl
    exact ⟨c, hc, hce⟩
  · rintro ⟨c, hc, hce⟩
    exact List.mem_map.mpr ⟨(c, ln), (mem_ep_upds conf cids a c ln).mpr ⟨hc, hce⟩, rfl⟩

theorem ep_upds_ne_nil (conf : Conf) (cids : List String) (a : String) :
    ep_upds conf cids a ≠ [] ↔
      ∃ cid ∈ cids, (child_endpoint conf cid).map Prod.fst = some a := by
  constructor
  · intro h
    obtain ⟨u, hu⟩ := List.exists_mem_of_ne_nil _ h
    obtain ⟨c, l⟩ := u
    obtain ⟨hc, hce⟩ := (mem_ep_upds conf cids a c l).mp hu
    exact ⟨c, hc, by simp [hce]⟩
  · rintro ⟨c, hc, hce⟩
    cases hcc : child_endpoint conf c with
    | none => simp [hcc] at hce
    | some pr =>
      obtain ⟨ip, l⟩ := pr
      simp [hcc] at hce
      subst hce
      intro hnil
      have : (c, l) ∈ ep_upds conf cids ip := (mem_ep_upds conf cids ip c l).mpr ⟨hc, hcc⟩
      simp [hnil] at this

theorem foldl_append_pairs (us : List (String × Int)) :
    ∀ (acc : List (String × Int)),
      us.foldl (fun vs u => vs ++ [(u.1, u.2)]) acc = acc ++ us := by
  induction us with
  | nil => intro acc; simp
  | cons u rest ih => intro acc; simp [List.foldl_cons, ih]

/-- The bucket that `build_ip_map` stores under address `a` is exactly the
ordered list of (child id, channel) pairs of the resolvable children whose
truthy endpoint has address `a`. -/
theorem ip_map_alookup (conf : Conf) (cids : List String) (a : String) :
    alookup (build_ip_map conf cids) a =
      if ep_upds conf cids a = [] then none else some (ep_upds conf cids a) := by
  rw [build_ip_map_eq_ep, ep_build_alookup_nil]
  split
  · rfl
  · rw [foldl_append_pairs]
    rfl

theorem ip_map_keys_nodup (conf : Conf) (cids : List String) :
    ((build_ip_map conf cids).map Prod.fst).Nodup := by
  rw [build_ip_map_eq_ep]
  exact ep_build_keys_nodup conf [] _ cids [] (by simp)

theorem batch_keys_nodup (conf : Conf) (cids : List String) (data : Delta) :
    ((build_batch conf cids data).map Prod.fst).Nodup := by
  rw [build_batch_eq_ep]
  exact ep_build_keys_nodup conf [] _ cids [] (by simp)

theorem ip_map_keys_mem (conf : Conf) (cids : List String) (a : String) :
    a ∈ (build_ip_map conf cids).map Prod.fst ↔
      ∃ cid ∈ cids, (child_endpoint conf cid).map Prod.fst = some a := by
  rw [← alookup_isSome, ip_map_alookup, ← ep_upds_ne_nil]
  split <;> simp_all

theorem batch_keys_mem (conf : Conf) (cids : List String) (data : Delta) (a : String) :
    a ∈ (build_batch conf cids data).map Prod.fst ↔
      ∃ cid ∈ cids, (child_endpoint conf cid).map Prod.fst = some a := by
  rw [← alookup_isSome, build_batch_eq_ep, ep_build_alookup_nil, ← ep_upds_ne_nil]
  split <;> simp_all

theorem payload_fold_alookup (data : Delta) (ln : Int) :
    ∀ (us : List (String × Int)) (d0 : List (Int × Delta)),
    alookup (us.foldl (fun d u => dict_upd d u.2 data (fun _ => data)) d0) ln =
      if ln ∈ us.map Prod.snd then some data else alookup d0 ln := by
  intro us
  induction us with
  | nil => intro d0; simp
  | cons u rest ih =>
    intro d0
    rw [List.foldl_cons, ih, alookup_dict_upd]
    by_cases hl : ln ∈ rest.map Prod.snd
    · simp [hl]
    · by_cases hu : u.2 = ln
      · simp [hl, hu]
      · have hu2 : ¬ ln = u.2 := fun h => hu h.symm
        simp [hl, hu, hu2]

/-- The payload of the single PUT batched for address `a` holds key `ln`
(with value `data`, the full recognized-field delta) exactly when some
resolvable child with a truthy endpoint lives at channel `ln` of `a`. -/
theorem batch_payload_alookup (conf : Conf) (cids : List String) (data : Delta)
    (a : String) (ln : Int) :
    ((alookup (build_batch conf cids data) a).bind (fun d => alookup d ln)) =
      if (∃ cid ∈ cids, child_endpoint conf cid = some (a, ln)) then some data else none := by
  rw [build_batch_eq_ep, ep_build_alookup_nil]
  split
  · rename_i hnil
    rw [if_neg]
    · rfl
    · rintro ⟨c, hc, hce⟩
      have : (c, ln) ∈ ep_upds conf cids a := (mem_ep_upds conf cids a c ln).mpr ⟨hc, hce⟩
      simp [hnil] at this
  · have hsb : ∀ (d : List (Int × Delta)),
        ((some d).bind fun d => alookup d ln) = alookup d ln := fun _ => rfl
    rw [hsb, payload_fold_alookup]
    by_cases hex : ∃ cid ∈ cids, child_endpoint conf cid = some (a, ln)
    · rw [if_pos ((snd_mem_ep_upds conf cids a ln).mpr hex), if_pos hex]
    · rw [if_neg (fun h => hex ((snd_mem_ep_upds conf cids a ln).mp h)), if_neg hex]
      rfl

/-! ### Network-phase lemmas -/

theorem update_child_from_response_other (conf : Conf) (cid : String) (sub : LightState)
    (c : String) (h : c ≠ cid) : update_child_from_response conf cid sub c = conf c := by
  unfold update_child_from_response
  cases conf cid <;> simp [h]

theorem mark_unreachable_other (conf : Conf) (cid : String) (c : String) (h : c ≠ cid) :
    mark_unreachable conf cid c = conf c := by
  unfold mark_unreachable
  cases conf cid <;> simp [h]

theorem mark_unreachable_self (conf : Conf) (cid : String) (ch : Light)
    (h : conf cid = some ch) :
    mark_unreachable conf cid cid =
      some { ch with state := { ch.state with reachable := some false } } := by
  unfold mark_unreachable
  rw [h]
  simp

theorem bucket_fold_preserve (g : Conf → String × Int → Conf)
    (hg : ∀ (conf : Conf) (p : String × Int) (c : String), c ≠ p.1 → g conf p c = conf c)
    (cid : String) :
    ∀ (bs : List (String × Int)) (conf : Conf), (∀ p ∈ bs, p.1 ≠ cid) →
      (bs.foldl g conf) cid = conf cid := by
  intro bs
  induction bs with
  | nil => intro conf _; rfl
  | cons p rest ih =>
    intro conf h
    rw [List.foldl_cons, ih _ (fun q hq => h q (List.mem_cons_of_mem _ hq))]
    exact hg conf p cid (fun hc => h p (List.mem_cons_self _ _) hc.symm)

/-- Processing one IP group leaves every registry entry outside the group
untouched. -/
theorem process_ip_group_preserve (net : String → Option GetResult) (conf : Conf)
    (grp : String × List (String × Int)) (cid : String)
    (h : ∀ p ∈ grp.2, p.1 ≠ cid) : process_ip_group net conf grp cid = conf cid := by
  unfold process_ip_group
  cases net grp.1 with
  | some res =>
    exact bucket_fold_preserve _
      (fun conf p c hc => update_child_from_response_other conf p.1 _ c hc) cid grp.2 conf h
  | none =>
    exact bucket_fold_preserve _
      (fun conf p c hc => mark_unreachable_other conf p.1 c hc) cid grp.2 conf h

theorem network_fold_preserve (net : String → Option GetResult) (cid : String) :
    ∀ (E : List (String × List (String × Int))) (conf : Conf),
      (∀ e ∈ E, ∀ p ∈ e.2, p.1 ≠ cid) →
      (E.foldl (process_ip_group net) conf) cid = conf cid := by
  intro E
  induction E with
  | nil => intro conf _; rfl
  | cons e rest ih =>
    intro conf h
    rw [List.foldl_cons, ih _ (fun e' he' => h e' (List.mem_cons_of_mem _ he'))]
    exact process_ip_group_preserve net conf e cid (h e (List.mem_cons_self _ _))

/-- The failure branch of the GET loop: folding `mark_unreachable` over a
group that mentions `cid` sets exactly its `reachable` field to `false`. -/
theorem mark_fold (cid : String) :
    ∀ (bs : List (String × Int)) (conf : Conf) (ch : Light), conf cid = some ch →
    (bs.foldl (fun c p => mark_unreachable c p.1) conf) cid =
      if ∃ p ∈ bs, p.1 = cid
      then some { ch with state := { ch.state with reachable := some false } }
      else some ch := by
  intro bs
  induction bs with
  | nil => intro conf ch h; simpa using h
  | cons p rest ih =>
    intro conf ch h
    rw [List.foldl_cons]
    by_cases hp : p.1 = cid
    · have h1 : mark_unreachable conf p.1 cid =
          some { ch with state := { ch.state with reachable := some false } } := by
        rw [hp]; exact mark_unreachable_self conf cid ch h
      rw [ih _ _ h1]
      have hex2 : ∃ q ∈ p :: rest, q.1 = cid := ⟨p, List.mem_cons_self _ _, hp⟩
      rw [if_pos hex2]
      split <;> rfl
    · have h1 : mark_unreachable conf p.1 cid = some ch := by
        rw [mark_unreachable_other conf p.1 cid (fun hc => hp hc.symm)]; exact h
      rw [ih _ _ h1]
      by_cases hex : ∃ q ∈ rest, q.1 = cid
      · obtain ⟨q, hq, hq2⟩ := hex
        rw [if_pos ⟨q, hq, hq2⟩, if_pos ⟨q, List.mem_cons_of_mem _ hq, hq2⟩]
      · rw [if_neg hex, if_neg ?hno]
        case hno =>
          rintro ⟨q, hq, hq2⟩
          rcases List.mem_cons.mp hq with heq | hmem
          · exact hp (heq ▸ hq2)
          · exact hex ⟨q, hmem, hq2⟩

/-- If the GET to address `a` fails, then after the whole network phase the
child `cid` that was grouped under `a` (and under no other address) has its
cached `reachable` set to `false` and every other field unchanged. -/
theorem network_fold_fail_at (net : String → Option GetResult) (a : String) (cid : String)
    (ln : Int) :
    ∀ (E : List (String × List (String × Int))) (conf : Conf) (ch : Light)
      (bs : List (String × Int)),
    ((E.map Prod.fst).Nodup) →
    ((a, bs) ∈ E) →
    (∀ e ∈ E, e.1 ≠ a → ∀ p ∈ e.2, p.1 ≠ cid) →
    ((cid, ln) ∈ bs) →
    net a = none →
    conf cid = some ch →
    (E.foldl (process_ip_group net) conf) cid =
      some { ch with state := { ch.state with reachable := some false } } := by
  intro E
  induction E with
  | nil => intro conf ch bs _ hmem; simp at hmem
  | cons e rest ih =>
    intro conf ch bs hnd hmem hother hcl hnet hconf
    rw [List.foldl_cons]
    rcases List.mem_cons.mp hmem with he | he
    · have hkey : e.1 = a := by rw [← he]
      have hbs : e.2 = bs := by rw [← he]
      have h0 : process_ip_group net conf e =
          List.foldl (fun c p => mark_unreachable c p.1) conf e.2 := by
        unfold process_ip_group
        rw [hkey, hnet]
      have h1 : process_ip_group net conf e cid =
          some { ch with state := { ch.state with reachable := some false } } := by
        rw [h0, hbs, mark_fold cid bs conf ch hconf, if_pos ⟨(cid, ln), hcl, rfl⟩]
      have hnotin : ∀ e' ∈ rest, ∀ p ∈ e'.2, p.1 ≠ cid := by
        intro e' he' p hp
        have hne : e'.1 ≠ a := by
          intro hea
          have : a ∈ rest.map Prod.fst := List.mem_map.mpr ⟨e', he', hea⟩
          simp only [List.map_cons, List.nodup_cons] at hnd
          exact hnd.1 (hkey ▸ this)
        exact hother e' (List.mem_cons_of_mem _ he') hne p hp
      rw [network_fold_preserve net cid rest _ hnotin, h1]
    · have hne : e.1 ≠ a := by
        intro hea
        have : a ∈ rest.map Prod.fst := List.mem_map.mpr ⟨(a, bs), he, rfl⟩
        simp only [List.map_cons, List.nodup_cons] at hnd
        exact hnd.1 (hea ▸ this)
      have h1 : process_ip_group net conf e cid = some ch := by
        rw [process_ip_group_preserve net conf e cid
          (hother e (List.mem_cons_self _ _) hne)]
        exact hconf
      simp only [List.map_cons, List.nodup_cons] at hnd
      exact ih _ ch bs hnd.2 he
        (fun e' he' => hother e' (List.mem_cons_of_mem _ he')) hcl hnet h1

/-! ### Aggregation lemmas -/

/-- The cached states of the resolvable children, in `linked_lights` order
(an unresolved id contributes nothing). -/
def states_of (conf : Conf) (cids : List String) : List LightState :=
  cids.filterMap (fun c => (conf c).map Light.state)

theorem agg_foldl_shift (conf : Conf) :
    ∀ (cids : List String) (acc : Nat × Int × Nat × Nat),
    cids.foldl (agg_step conf) acc =
      (acc.1 + (agg_counts conf cids).1, acc.2.1 + (agg_counts conf cids).2.1,
       acc.2.2.1 + (agg_counts conf cids).2.2.1, acc.2.2.2 + (agg_counts conf cids).2.2.2) := by
  intro cids
  induction cids with
  | nil => intro acc; simp [agg_counts]
  | cons c rest ih =>
    intro acc
    have hstep : agg_counts conf (c :: rest) =
        List.foldl (agg_step conf) (agg_step conf (0, 0, 0, 0) c) rest := rfl
    rw [List.foldl_cons, ih, hstep, ih]
    cases hc : conf c with
    | none => simp [agg_step, hc]
    | some child =>
      by_cases h1 : child.state.on_ = some true <;>
        by_cases h2 : child.state.reachable = some true <;>
          cases hb : child.state.bri <;>
            simp [agg_step, hc, h1, h2, hb, Prod.ext_iff] <;>
              omega

/-- The aggregation loop computes, over the resolvable children's states:
the count of Python-truthy `on` values, the sum of the present `bri`
values, the count of truthy `reachable` values, and the number of resolved
children (bri-less children still count toward the length). -/
theorem agg_counts_formula (conf : Conf) (cids : List String) :
    agg_counts conf cids =
      ((states_of conf cids).countP (fun st => decide (st.on_ = some true)),
       ((states_of conf cids).filterMap LightState.bri).sum,
       (states_of conf cids).countP (fun st => decide (st.reachable = some true)),
       (states_of conf cids).length) := by
  induction cids with
  | nil => rfl
  | cons c rest ih =>
    have hstep : agg_counts conf (c :: rest) =
        List.foldl (agg_step conf) (agg_step conf (0, 0, 0, 0) c) rest := rfl
    rw [hstep, agg_foldl_shift, ih]
    cases hc : conf c with
    | none =>
      have hs : states_of conf (c :: rest) = states_of conf rest := by
        simp [states_of, List.filterMap_cons, hc]
      simp [agg_step, hc, hs]
    | some child =>
      have hs : states_of conf (c :: rest) = child.state :: states_of conf rest := by
        simp [states_of, List.filterMap_cons, hc]
      rw [hs]
      by_cases h1 : child.state.on_ = some true <;>
        by_cases h2 : child.state.reachable = some true <;>
          cases hb : child.state.bri <;>
            simp [agg_step, hc, h1, h2, hb, Prod.ext_iff, List.countP_cons,
              List.filterMap_cons] <;>
              omega

/-! ### Characterizations of the two entry points -/

theorem reach_fold (putOk : String → Bool) :
    ∀ (l : List (String × List (Int × Delta))) (b : Bool),
    l.foldl (fun r g => if putOk g.1 then some true else r) (some b) =
      some (b || l.any (fun g => putOk g.1)) := by
  intro l
  induction l with
  | nil => intro b; simp
  | cons g rest ih =>
    intro b
    rw [List.foldl_cons]
    by_cases h : putOk g.1 <;> simp [h, ih]

/-- Characterization of `set_light` on a light with `linked_lights` present: the parent ends
with `reachable = (some endpoint PUT succeeded)` and the issued requests
are exactly the batch. -/
theorem set_light_linked (conf : Conf) (putOk : String → Bool) (light : Light)
    (data : Delta) (cids : List String)
    (h : light.protocol_cfg_linked_lights = some cids) :
    set_light conf putOk light data =
      ⟨{ light with state := { light.state with
          reachable := some ((build_batch conf cids data).any (fun g => putOk g.1)) } },
        build_batch conf cids data⟩ := by
  unfold set_light
  rw [h]
  simp only [reach_fold, Bool.false_or]

theorem get_conf_linked (conf : Conf) (net : String → Option GetResult) (light : Light)
    (cids : List String) (h : light.protocol_cfg_linked_lights = some cids) :
    (get_light_state conf net light).conf =
      (build_ip_map conf cids).foldl (process_ip_group net) conf := by
  unfold get_light_state
  rw [h]

theorem get_requests_linked (conf : Conf) (net : String → Option GetResult) (light : Light)
    (cids : List String) (h : light.protocol_cfg_linked_lights = some cids) :
    (get_light_state conf net light).requests = (build_ip_map conf cids).map Prod.fst := by
  unfold get_light_state
  rw [h]

theorem get_light_linked (conf : Conf) (net : String → Option GetResult) (light : Light)
    (cids : List String) (h : light.protocol_cfg_linked_lights = some cids) :
    (get_light_state conf net light).light =
      (if 0 < (agg_counts ((build_ip_map conf cids).foldl (process_ip_group net) conf)
            cids).2.2.2 then
        { light with state := { light.state with
            on_ := some (decide (0 < (agg_counts ((build_ip_map conf cids).foldl
              (process_ip_group net) conf) cids).1)),
            bri := some (int_div (agg_counts ((build_ip_map conf cids).foldl
                (process_ip_group net) conf) cids).2.1
              (agg_counts ((build_ip_map conf cids).foldl (process_ip_group net) conf)
                cids).2.2.2),
            reachable := some (decide (0 < (agg_counts ((build_ip_map conf cids).foldl
              (process_ip_group net) conf) cids).2.2.1)) } }
      else light) := by
  unfold get_light_state
  rw [h]

/-! ### Entry characterization and congruence lemmas -/

theorem ip_map_entry (conf : Conf) (cids : List String)
    (e : String × List (String × Int)) (he : e ∈ build_ip_map conf cids) :
    e.2 = ep_upds conf cids e.1 := by
  have hmem : (e.1, e.2) ∈ build_ip_map conf cids := by
    rw [Prod.mk.eta]; exact he
  have h1 : alookup (build_ip_map conf cids) e.1 = some e.2 :=
    mem_alookup_of_nodup _ _ _ (ip_map_keys_nodup conf cids) hmem
  rw [ip_map_alookup] at h1
  split at h1
  · exact absurd h1 (by simp)
  · exact (Option.some.injEq _ _ ▸ h1).symm

/-- A child grouped (by its endpoint) under address `a` appears in no other
address's bucket. -/
theorem ip_map_no_foreign (conf : Conf) (cids : List String) (a : String) (cid : String)
    (hce : (child_endpoint conf cid).map Prod.fst = some a) :
    ∀ e ∈ build_ip_map conf cids, e.1 ≠ a → ∀ p ∈ e.2, p.1 ≠ cid := by
  intro e he hne p hp hpc
  obtain ⟨pc, pl⟩ := p
  rw [ip_map_entry conf cids e he] at hp
  obtain ⟨_, hcp⟩ := (mem_ep_upds conf cids e.1 pc pl).mp hp
  have hpc' : pc = cid := hpc
  subst hpc'
  rw [hcp] at hce
  simp at hce
  exact hne hce

theorem ep_build_skip {β : Type} (conf : Conf) (dflt : β)
    (upd : String → String → Int → β → β) :
    ∀ (cids : List String) (m : List (String × β)),
      (∀ c ∈ cids, child_endpoint conf c = none) → ep_build conf dflt upd cids m = m := by
  intro cids
  induction cids with
  | nil => intro m _; rfl
  | cons c rest ih =>
    intro m h
    have hstep : ep_build conf dflt upd (c :: rest) m = ep_build conf dflt upd rest m := by
      simp [ep_build, h c (List.mem_cons_self _ _)]
    rw [hstep]
    exact ih m (fun c' hc' => h c' (List.mem_cons_of_mem _ hc'))

theorem ep_build_filter_resolved {β : Type} (conf : Conf) (dflt : β)
    (upd : String → String → Int → β → β) :
    ∀ (cids : List String) (m : List (String × β)),
      ep_build conf dflt upd (cids.filter (fun c => (conf c).isSome)) m =
        ep_build conf dflt upd cids m := by
  intro cids
  induction cids with
  | nil => intro m; rfl
  | cons c rest ih =>
    intro m
    cases hc : conf c with
    | none =>
      have hf : (c :: rest).filter (fun c => (conf c).isSome) =
          rest.filter (fun c => (conf c).isSome) := by
        simp [List.filter_cons, hc]
      have hstep : ep_build conf dflt upd (c :: rest) m = ep_build conf dflt upd rest m := by
        simp [ep_build, child_endpoint, hc]
      rw [hf, hstep, ih]
    | some child =>
      have hf : (c :: rest).filter (fun c => (conf c).isSome) =
          c :: rest.filter (fun c => (conf c).isSome) := by
        simp [List.filter_cons, hc]
      rw [hf]
      cases he : endpoint_of child with
      | none =>
        have hstep1 : ∀ (l : List String) (m' : List (String × β)),
            ep_build conf dflt upd (c :: l) m' = ep_build conf dflt upd l m' := by
          intro l m'
          simp [ep_build, child_endpoint, hc, he]
        rw [hstep1, hstep1, ih]
      | some pr =>
        obtain ⟨ip, ln⟩ := pr
        have hstep1 : ∀ (l : List String) (m' : List (String × β)),
            ep_build conf dflt upd (c :: l) m' =
              ep_build conf dflt upd l (dict_upd m' ip dflt (upd c ip ln)) := by
          intro l m'
          simp [ep_build, child_endpoint, hc, he]
        rw [hstep1, hstep1, ih]

theorem ep_build_congr {β : Type} (conf conf' : Conf) (dflt : β)
    (upd : String → String → Int → β → β) :
    ∀ (cids : List String) (m : List (String × β)),
      (∀ c ∈ cids, child_endpoint conf c = child_endpoint conf' c) →
      ep_build conf dflt upd cids m = ep_build conf' dflt upd cids m := by
  intro cids
  induction cids with
  | nil => intro m _; rfl
  | cons c rest ih =>
    intro m h
    have hc := h c (List.mem_cons_self _ _)
    have htail := fun c' hc' => h c' (List.mem_cons_of_mem _ hc')
    cases hce : child_endpoint conf c with
    | none =>
      have hstep : ep_build conf dflt upd (c :: rest) m = ep_build conf dflt upd rest m := by
        simp [ep_build, hce]
      have hstep' : ep_build conf' dflt upd (c :: rest) m = ep_build conf' dflt upd rest m := by
        simp [ep_build, ← hc, hce]
      rw [hstep, hstep', ih m htail]
    | some pr =>
      obtain ⟨ip, ln⟩ := pr
      have hstep : ep_build conf dflt upd (c :: rest) m =
          ep_build conf dflt upd rest (dict_upd m ip dflt (upd c ip ln)) := by
        simp [ep_build, hce]
      have hstep' : ep_build conf' dflt upd (c :: rest) m =
          ep_build conf' dflt upd rest (dict_upd m ip dflt (upd c ip ln)) := by
        simp [ep_build, ← hc, hce]
      rw [hstep, hstep', ih _ htail]

theorem states_of_filter_resolved (conf : Conf) :
    ∀ (cids : List String),
      states_of conf (cids.filter (fun c => (conf c).isSome)) = states_of conf cids := by
  intro cids
  induction cids with
  | nil => rfl
  | cons c rest ih =>
    cases hc : conf c with
    | none =>
      have hf : (c :: rest).filter (fun c => (conf c).isSome) =
          rest.filter (fun c => (conf c).isSome) := by
        simp [List.filter_cons, hc]
      have hs : states_of conf (c :: rest) = states_of conf rest := by
        simp [states_of, List.filterMap_cons, hc]
      rw [hf, hs, ih]
    | some child =>
      have hf : (c :: rest).filter (fun c => (conf c).isSome) =
          c :: rest.filter (fun c => (conf c).isSome) := by
        simp [List.filter_cons, hc]
      have hs : states_of conf (c :: rest) = child.state :: states_of conf rest := by
        simp [states_of, List.filterMap_cons, hc]
      have hs2 : states_of conf (c :: rest.filter (fun c => (conf c).isSome)) =
          child.state :: states_of conf (rest.filter (fun c => (conf c).isSome)) := by
        simp [states_of, List.filterMap_cons, hc]
      rw [hf, hs2, hs, ih]

theorem agg_counts_filter_resolved (conf : Conf) (cids : List String) :
    agg_counts conf (cids.filter (fun c => (conf c).isSome)) = agg_counts conf cids := by
  rw [agg_counts_formula, agg_counts_formula, states_of_filter_resolved]

/-- A resolvable child with no truthy endpoint is in no IP group, so the
whole network phase of `get_light_state` leaves it untouched. -/
theorem unbatched_untouched (conf : Conf) (net : String → Option GetResult) (light : Light)
    (cid : String) (child : Light)
    (h1 : conf cid = some child) (h2 : endpoint_of child = none) :
    (get_light_state conf net light).conf cid = some child := by
  cases hl : light.protocol_cfg_linked_lights with
  | none =>
    unfold get_light_state
    rw [hl]
    exact h1
  | some cids =>
    rw [get_conf_linked conf net light cids hl]
    rw [network_fold_preserve net cid (build_ip_map conf cids) conf ?hno]
    · exact h1
    case hno =>
      intro e he p hp hpc
      obtain ⟨pc, pl⟩ := p
      rw [ip_map_entry conf cids e he] at hp
      obtain ⟨_, hcp⟩ := (mem_ep_upds conf cids e.1 pc pl).mp hp
      have hpc' : pc = cid := hpc
      subst hpc'
      rw [child_endpoint, h1] at hcp
      simp [h2] at hcp

/-- When at least one child resolves, the parent's returned `bri` is the
truncated quotient of (sum of the `bri` values present among the
post-network child states) by (the number of all resolved children). -/
theorem get_parent_bri (conf : Conf) (net : String → Option GetResult) (light : Light)
    (cids : List String) (h : light.protocol_cfg_linked_lights = some cids)
    (hne : states_of ((get_light_state conf net light).conf) cids ≠ []) :
    (get_light_state conf net light).light.state.bri =
      some (int_div
        ((states_of ((get_light_state conf net light).conf) cids).filterMap
          LightState.bri).sum
        (states_of ((get_light_state conf net light).conf) cids).length) := by
  have hc := get_conf_linked conf net light cids h
  rw [hc] at hne ⊢
  have hpos : 0 < (states_of ((build_ip_map conf cids).foldl (process_ip_group net) conf)
      cids).length := List.length_pos.mpr hne
  rw [get_light_linked conf net light cids h, agg_counts_formula]
  simp only
  rw [if_pos hpos]

/-- When no child resolves (but `linked_lights` is present), `get_light_state`
does nothing at all: no request, no registry change, parent returned as is. -/
theorem get_zero_resolved (conf : Conf) (net : String → Option GetResult) (light : Light)
    (cids : List String) (h : light.protocol_cfg_linked_lights = some cids)
    (hnil : states_of conf cids = []) :
    get_light_state conf net light = ⟨conf, light, []⟩ := by
  have hnone : ∀ c ∈ cids, conf c = none := by
    intro c hc
    cases hcc : conf c with
    | none => rfl
    | some child =>
      have : (fun c => (conf c).map Light.state) c ≠ none := by simp [hcc]
      rw [states_of] at hnil
      exact absurd (List.filterMap_eq_nil_iff.mp hnil c hc) this
  have hE : build_ip_map conf cids = [] := by
    rw [build_ip_map_eq_ep]
    exact ep_build_skip conf [] _ cids []
      (fun c hc => by simp [child_endpoint, hnone c hc])
  unfold get_light_state
  rw [h]
  simp only [hE, List.foldl_nil, List.map_nil]
  rw [agg_counts_formula]
  simp [hnil]

/-! ### Claim C1 -/

/-- The `bri` aggregation rule exactly as the specification words it, for
comparison with the code: average only over the children that report a
`bri`, excluding the others from denominator as well as numerator. -/
def bri_spec_claimed (states : List LightState) : Option Int :=
  let bs := states.filterMap LightState.bri
  if bs.length = 0 then none else some (int_div bs.sum bs.length)

def c1_d : Light :=
  { name := "d", state := { on_ := some true, bri := some 200, reachable := some true } }

def c1_e : Light :=
  { name := "e", state := { on_ := some true, reachable := some true } }

def c1_conf : Conf := fun c => if c = "d" then some c1_d else if c = "e" then some c1_e else none

def c1_net : String → Option GetResult := fun _ => none

def c1_parent : Light := { name := "v1", protocol_cfg_linked_lights := some ["d", "e"] }

/-- C1 (counterexample): for two resolved children with cached states
(one with `bri = 200`, one lacking `bri`) the code returns
`int(200 / 2) = 100` — the bri-less child stays in the denominator —
whereas the claimed rule (average over bri-reporting children only) gives
`200`. -/
theorem C1_counterexample :
    (get_light_state c1_conf c1_net c1_parent).light.state.bri = some 100 ∧
    bri_spec_claimed
      (states_of (get_light_state c1_conf c1_net c1_parent).conf ["d", "e"]) = some 200 := by
  decide

/-- C1 (amended): for a virtual light whose children all have a cached
state, the aggregated `bri` is the floor of (sum of the `bri` values of
the children that report one) divided by the count of ALL resolved
children — a child lacking `bri` is excluded from the numerator but still
counted in the denominator.  The 200/100/54 example still aggregates to
118. -/
theorem C1_bri_average (conf : Conf) (net : String → Option GetResult) (light : Light)
    (cids : List String) (h : light.protocol_cfg_linked_lights = some cids)
    (hne : states_of ((get_light_state conf net light).conf) cids ≠ []) :
    (get_light_state conf net light).light.state.bri =
      some (int_div
        ((states_of ((get_light_state conf net light).conf) cids).filterMap
          LightState.bri).sum
        (states_of ((get_light_state conf net light).conf) cids).length) :=
  get_parent_bri conf net light cids h hne

def c1w_a : Light :=
  { name := "a", state := { on_ := some true, bri := some 200, reachable := some true } }

def c1w_b : Light :=
  { name := "b", state := { on_ := some true, bri := some 100, reachable := some true } }

def c1w_c : Light :=
  { name := "c", state := { on_ := some true, bri := some 54, reachable := some true } }

def c1w_conf : Conf := fun c =>
  if c = "a" then some c1w_a else if c = "b" then some c1w_b else
    if c = "c" then some c1w_c else none

def c1w_net : String → Option GetResult := fun _ => none

def c1w_parent : Light := { name := "v1w", protocol_cfg_linked_lights := some ["a", "b", "c"] }

theorem C1_bri_average_witness :
    c1w_parent.protocol_cfg_linked_lights = some ["a", "b", "c"] ∧
    states_of ((get_light_state c1w_conf c1w_net c1w_parent).conf) ["a", "b", "c"] ≠ [] ∧
    (get_light_state c1w_conf c1w_net c1w_parent).light.state.bri = some 118 := by
  refine ⟨rfl, by decide, ?_⟩
  have h := C1_bri_average c1w_conf c1w_net c1w_parent ["a", "b", "c"] rfl (by decide)
  rw [h]
  decide

/-! ### Claim C2 -/

/-- The fixed fallback child state the specification names. -/
def fallback_state : LightState :=
  { on_ := some true, bri := some 254, reachable := some true }

def c2_f : Light := { name := "f" }

def c2_conf : Conf := fun c => if c = "f" then some c2_f else none

def c2_net : String → Option GetResult := fun _ => none

def c2_parent : Light :=
  { name := "v2", protocol_cfg_linked_lights := some ["f"],
    state := { on_ := some true, bri := some 77, reachable := some true } }

/-- C2 (counterexample): a child whose driver has no query callback and
whose cached state is empty contributes nothing like
`{on: true, bri: 254, reachable: true}`: the code leaves the child's
cached state empty and aggregates the parent to on=false, bri=0,
reachable=false, while the claimed fallback would force on=true, bri=254,
reachable=true. -/
theorem C2_counterexample :
    (get_light_state c2_conf c2_net c2_parent).light.state.on_ = some false ∧
    (get_light_state c2_conf c2_net c2_parent).light.state.bri = some 0 ∧
    (get_light_state c2_conf c2_net c2_parent).light.state.reachable = some false ∧
    ((get_light_state c2_conf c2_net c2_parent).conf "f").map Light.state =
      some ({} : LightState) ∧
    fallback_state.on_ = some true ∧ fallback_state.bri = some 254 := by
  decide

/-- C2 (amended): during resolve a child's current state is exactly its
cached in-memory state, refreshed only by the batched endpoint read; a
resolvable child without a truthy endpoint is left completely untouched —
no per-child driver callback is attempted and no fixed fallback state is
ever substituted, so an empty cached state enters the aggregation as
"on falsy, no bri, reachable falsy". -/
theorem C2_cached_state_only (conf : Conf) (net : String → Option GetResult) (light : Light)
    (cid : String) (child : Light)
    (h1 : conf cid = some child) (h2 : endpoint_of child = none) :
    (get_light_state conf net light).conf cid = some child :=
  unbatched_untouched conf net light cid child h1 h2

def c2w_f : Light := { name := "fw", state := { bri := some 9 } }

def c2w_conf : Conf := fun c => if c = "fw" then some c2w_f else none

def c2w_net : String → Option GetResult := fun _ => none

def c2w_parent : Light := { name := "v2w", protocol_cfg_linked_lights := some ["fw"] }

theorem C2_cached_state_only_witness :
    c2w_conf "fw" = some c2w_f ∧ endpoint_of c2w_f = none ∧
    (get_light_state c2w_conf c2w_net c2w_parent).conf "fw" = some c2w_f :=
  ⟨rfl, rfl, C2_cached_state_only c2w_conf c2w_net c2w_parent "fw" c2w_f rfl rfl⟩

/-! ### Claim C3 -/

def c3_conf : Conf := fun _ => none

def c3_net : String → Option GetResult := fun _ => none

def c3_parent_t : Light :=
  { name := "v3", protocol_cfg_linked_lights := some ["x"],
    state := { reachable := some true } }

def c3_parent_f : Light :=
  { name := "v3", protocol_cfg_linked_lights := some ["x"],
    state := { reachable := some false } }

/-- C3 (counterexample): `get_light_state` does not set the parent's
`reachable` to false at the start of the call: on a virtual light with
children configured but none resolvable (so no per-child or per-endpoint
processing ever re-evaluates the flag) the prior value survives — two
calls identical except for the prior `reachable` return different
`reachable` values, which is impossible under the claimed unconditional
reset. -/
theorem C3_counterexample :
    (get_light_state c3_conf c3_net c3_parent_t).light.state.reachable = some true ∧
    (get_light_state c3_conf c3_net c3_parent_f).light.state.reachable = some false := by
  decide

/-- C3 (amended): only `set_light` resets `reachable` pessimistically at
the start of the call — its entire outcome is as if the prior `reachable`
were already false.  `get_light_state` performs no such reset: it only
overwrites `reachable` in the final aggregation when at least one child
resolves, so with children configured but none resolvable the parent (and
its stale `reachable`) is returned unchanged. -/
theorem C3_reset_only_in_set_light (conf : Conf) (putOk : String → Bool)
    (net : String → Option GetResult) (light : Light) (data : Delta)
    (cids : List String) (r : Option Bool)
    (h : light.protocol_cfg_linked_lights = some cids) :
    (set_light conf putOk { light with state := { light.state with reachable := r } } data =
      set_light conf putOk
        { light with state := { light.state with reachable := some false } } data) ∧
    (states_of conf cids = [] → (get_light_state conf net light).light = light) := by
  constructor
  · rw [set_light_linked conf putOk
        { light with state := { light.state with reachable := r } } data cids h,
      set_light_linked conf putOk
        { light with state := { light.state with reachable := some false } } data cids h]
  · intro hnil
    rw [get_zero_resolved conf net light cids h hnil]

def c3w_conf : Conf := fun _ => none

def c3w_net : String → Option GetResult := fun _ => none

def c3w_parent : Light :=
  { name := "v3w", protocol_cfg_linked_lights := some ["cw"],
    state := { reachable := some true } }

theorem C3_reset_only_in_set_light_witness :
    c3w_parent.protocol_cfg_linked_lights = some ["cw"] ∧
    states_of c3w_conf ["cw"] = [] ∧
    (set_light c3w_conf (fun _ => false)
        { c3w_parent with state := { c3w_parent.state with reachable := some true } } {} =
      set_light c3w_conf (fun _ => false)
        { c3w_parent with state := { c3w_parent.state with reachable := some false } } {}) ∧
    (get_light_state c3w_conf c3w_net c3w_parent).light = c3w_parent := by
  have H := C3_reset_only_in_set_light c3w_conf (fun _ => false) c3w_net c3w_parent {}
    ["cw"] (some true) rfl
  exact ⟨rfl, by decide, H.1, H.2 (by decide)⟩

/-! ### Claim C4 -/

def c4_g : Light := { name := "g4" }

def c4_conf : Conf := fun c => if c = "g4" then some c4_g else none

def c4_net : String → Option GetResult := fun _ => none

def c4_parent : Light := { name := "v4", protocol_cfg_linked_lights := some ["g4"] }

/-- C4 (counterexample): with a non-empty resolved child set in which no
child yields any usable state fields (one resolved child, empty cached
state, unreachable endpoint-less), the aggregated brightness written and
returned is 0 — not 1 as claimed. -/
theorem C4_counterexample :
    (get_light_state c4_conf c4_net c4_parent).light.state.bri = some 0 ∧
    (0 : Int) ≠ 1 := by
  decide

/-- C4 (amended): when at least one child resolves but none reports a
`bri`, the aggregated brightness written and returned is 0 (the floor of
0 divided by the child count); when no child resolves at all, no
brightness is written and the prior cached state is returned unchanged.
The value 1 appears nowhere. -/
theorem C4_default_brightness (conf : Conf) (net : String → Option GetResult)
    (light : Light) (cids : List String)
    (h : light.protocol_cfg_linked_lights = some cids) :
    (states_of ((get_light_state conf net light).conf) cids ≠ [] →
      (states_of ((get_light_state conf net light).conf) cids).filterMap LightState.bri
        = [] →
      (get_light_state conf net light).light.state.bri = some 0) ∧
    (states_of conf cids = [] → (get_light_state conf net light).light = light) := by
  constructor
  · intro hne hnob
    rw [get_parent_bri conf net light cids h hne, hnob]
    simp [int_div]
  · intro hnil
    rw [get_zero_resolved conf net light cids h hnil]

def c4w_g : Light := { name := "g4w", state := { on_ := some true } }

def c4w_conf : Conf := fun c => if c = "g4w" then some c4w_g else none

def c4w_net : String → Option GetResult := fun _ => none

def c4w_parent : Light := { name := "v4w", protocol_cfg_linked_lights := some ["g4w"] }

theorem C4_default_brightness_witness :
    c4w_parent.protocol_cfg_linked_lights = some ["g4w"] ∧
    states_of ((get_light_state c4w_conf c4w_net c4w_parent).conf) ["g4w"] ≠ [] ∧
    (states_of ((get_light_state c4w_conf c4w_net c4w_parent).conf) ["g4w"]).filterMap
      LightState.bri = [] ∧
    (get_light_state c4w_conf c4w_net c4w_parent).light.state.bri = some 0 := by
  have H := C4_default_brightness c4w_conf c4w_net c4w_parent ["g4w"] rfl
  exact ⟨rfl, by decide, by decide, H.1 (by decide) (by decide)⟩

/-! ### Domain preservation by the network phase -/

theorem update_child_from_response_isSome (conf : Conf) (cid : String) (sub : LightState)
    (c : String) : ((update_child_from_response conf cid sub) c).isSome = (conf c).isSome := by
  unfold update_child_from_response
  cases h : conf cid with
  | none => rfl
  | some child =>
    by_cases hc : c = cid
    · subst hc; simp [h]
    · simp [hc]

theorem mark_unreachable_isSome (conf : Conf) (cid : String) (c : String) :
    ((mark_unreachable conf cid) c).isSome = (conf c).isSome := by
  unfold mark_unreachable
  cases h : conf cid with
  | none => rfl
  | some child =>
    by_cases hc : c = cid
    · subst hc; simp [h]
    · simp [hc]

theorem bucket_fold_isSome (g : Conf → String × Int → Conf)
    (hg : ∀ (conf : Conf) (p : String × Int) (c : String),
      ((g conf p) c).isSome = (conf c).isSome) :
    ∀ (bs : List (String × Int)) (conf : Conf) (c : String),
      ((bs.foldl g conf) c).isSome = (conf c).isSome := by
  intro bs
  induction bs with
  | nil => intro conf c; rfl
  | cons p rest ih =>
    intro conf c
    rw [List.foldl_cons, ih, hg]

theorem process_ip_group_isSome (net : String → Option GetResult) (conf : Conf)
    (grp : String × List (String × Int)) (c : String) :
    ((process_ip_group net conf grp) c).isSome = (conf c).isSome := by
  unfold process_ip_group
  cases net grp.1 with
  | some res =>
    exact bucket_fold_isSome _
      (fun conf p c => update_child_from_response_isSome conf p.1 _ c) grp.2 conf c
  | none =>
    exact bucket_fold_isSome _
      (fun conf p c => mark_unreachable_isSome conf p.1 c) grp.2 conf c

theorem network_fold_isSome (net : String → Option GetResult) :
    ∀ (E : List (String × List (String × Int))) (conf : Conf) (c : String),
      ((E.foldl (process_ip_group net) conf) c).isSome = (conf c).isSome := by
  intro E
  induction E with
  | nil => intro conf c; rfl
  | cons e rest ih =>
    intro conf c
    rw [List.foldl_cons, ih, process_ip_group_isSome]

theorem states_of_filter_of_isSome (conf conf2 : Conf)
    (hd : ∀ c, (conf2 c).isSome = (conf c).isSome) :
    ∀ (cids : List String),
      states_of conf2 (cids.filter (fun c => (conf c).isSome)) = states_of conf2 cids := by
  intro cids
  induction cids with
  | nil => rfl
  | cons c rest ih =>
    cases hc : conf c with
    | none =>
      have h2 : conf2 c = none := by
        have := hd c
        rw [hc] at this
        exact Option.not_isSome_iff_eq_none.mp (by simp [this])
      have hf : (c :: rest).filter (fun c => (conf c).isSome) =
          rest.filter (fun c => (conf c).isSome) := by
        simp [List.filter_cons, hc]
      have hs : states_of conf2 (c :: rest) = states_of conf2 rest := by
        simp [states_of, List.filterMap_cons, h2]
      rw [hf, hs, ih]
    | some child =>
      obtain ⟨child2, h2⟩ := Option.isSome_iff_exists.mp (by rw [hd c, hc]; rfl)
      have hf : (c :: rest).filter (fun c => (conf c).isSome) =
          c :: rest.filter (fun c => (conf c).isSome) := by
        simp [List.filter_cons, hc]
      have hs : states_of conf2 (c :: rest) = child2.state :: states_of conf2 rest := by
        simp [states_of, List.filterMap_cons, h2]
      have hs2 : states_of conf2 (c :: rest.filter (fun c => (conf c).isSome)) =
          child2.state :: states_of conf2 (rest.filter (fun c => (conf c).isSome)) := by
        simp [states_of, List.filterMap_cons, h2]
      rw [hf, hs2, hs, ih]

/-! ### Claim C5 -/

/-- C5: with an empty or absent child list, resolve returns the prior
cached state unchanged (and issues no request and touches no registry
entry), apply issues no request, and in the absent-key
(NoChildrenConfigured) case apply returns with no side effects at all. -/
theorem C5_no_children (conf : Conf) (putOk : String → Bool)
    (net : String → Option GetResult) (light : Light) (data : Delta)
    (h : light.protocol_cfg_linked_lights = none ∨
      light.protocol_cfg_linked_lights = some []) :
    (get_light_state conf net light).light = light ∧
    (get_light_state conf net light).requests = [] ∧
    (∀ c, (get_light_state conf net light).conf c = conf c) ∧
    (set_light conf putOk light data).requests = [] ∧
    (light.protocol_cfg_linked_lights = none →
      set_light conf putOk light data = ⟨light, []⟩) := by
  rcases h with h | h
  · have hg : get_light_state conf net light = ⟨conf, light, []⟩ := by
      unfold get_light_state
      rw [h]
    have hs : set_light conf putOk light data = ⟨light, []⟩ := by
      unfold set_light
      rw [h]
    rw [hg, hs]
    exact ⟨rfl, rfl, fun c => rfl, rfl, fun _ => rfl⟩
  · have hg : get_light_state conf net light = ⟨conf, light, []⟩ := by
      unfold get_light_state
      rw [h]
      rfl
    have hs : (set_light conf putOk light data).requests = [] := by
      unfold set_light
      rw [h]
      rfl
    rw [hg, hs]
    refine ⟨rfl, rfl, fun c => rfl, rfl, fun hn => ?_⟩
    rw [h] at hn
    exact Option.noConfusion hn

def c5_parent : Light := { name := "v5" }

def c5_conf : Conf := fun _ => none

def c5_net : String → Option GetResult := fun _ => none

theorem C5_no_children_witness :
    (c5_parent.protocol_cfg_linked_lights = none ∨
      c5_parent.protocol_cfg_linked_lights = some []) ∧
    (get_light_state c5_conf c5_net c5_parent).light = c5_parent ∧
    (get_light_state c5_conf c5_net c5_parent).requests = [] ∧
    (get_light_state c5_conf c5_net c5_parent).conf "q" = c5_conf "q" ∧
    (set_light c5_conf (fun _ => true) c5_parent {}).requests = [] ∧
    set_light c5_conf (fun _ => true) c5_parent {} = ⟨c5_parent, []⟩ := by
  have H := C5_no_children c5_conf (fun _ => true) c5_net c5_parent {} (Or.inl rfl)
  exact ⟨Or.inl rfl, H.1, H.2.1, H.2.2.1 "q", H.2.2.2.1, H.2.2.2.2 rfl⟩

/-! ### Claim C6 -/

/-- C6: per invocation, both entry points issue exactly one outbound
request per distinct endpoint address used by the (resolvable, truthy)
children — the address lists are duplicate-free and contain exactly those
addresses — and the single PUT for an address carries the per-channel
payloads keyed by channel number, one key per child channel, each holding
the recognized-field delta. -/
theorem C6_endpoint_batching (conf : Conf) (putOk : String → Bool)
    (net : String → Option GetResult) (light : Light) (data : Delta) (cids : List String)
    (h : light.protocol_cfg_linked_lights = some cids) :
    ((set_light conf putOk light data).requests.map Prod.fst).Nodup ∧
    (∀ a, a ∈ (set_light conf putOk light data).requests.map Prod.fst ↔
      ∃ cid ∈ cids, (child_endpoint conf cid).map Prod.fst = some a) ∧
    (∀ a ln, (alookup (set_light conf putOk light data).requests a).bind
        (fun d => alookup d ln) =
      if ∃ cid ∈ cids, child_endpoint conf cid = some (a, ln) then some data else none) ∧
    ((get_light_state conf net light).requests.Nodup) ∧
    (∀ a, a ∈ (get_light_state conf net light).requests ↔
      ∃ cid ∈ cids, (child_endpoint conf cid).map Prod.fst = some a) := by
  have hs := set_light_linked conf putOk light data cids h
  have hr := get_requests_linked conf net light cids h
  refine ⟨?_, ?_, ?_, ?_, ?_⟩
  · rw [hs]
    exact batch_keys_nodup conf cids data
  · intro a
    rw [hs]
    exact batch_keys_mem conf cids data a
  · intro a ln
    rw [hs]
    exact batch_payload_alookup conf cids data a ln
  · rw [hr]
    exact ip_map_keys_nodup conf cids
  · intro a
    rw [hr]
    exact ip_map_keys_mem conf cids a

def c6_g : Light :=
  { name := "g6", protocol_cfg_ip := some "10.0.6.1", protocol_cfg_light_nr := some 1,
    state := { bri := some 10 } }

def c6_h : Light :=
  { name := "h6", protocol_cfg_ip := some "10.0.6.1", protocol_cfg_light_nr := some 2 }

def c6_conf : Conf := fun c =>
  if c = "g6" then some c6_g else if c = "h6" then some c6_h else none

def c6_net : String → Option GetResult := fun _ => none

def c6_parent : Light := { name := "v6", protocol_cfg_linked_lights := some ["g6", "h6"] }

def c6_data : Delta := { on_ := some true, bri := some 128 }

theorem C6_endpoint_batching_witness :
    c6_parent.protocol_cfg_linked_lights = some ["g6", "h6"] ∧
    ((set_light c6_conf (fun _ => true) c6_parent c6_data).requests.map Prod.fst).Nodup ∧
    (set_light c6_conf (fun _ => true) c6_parent c6_data).requests.map Prod.fst
      = ["10.0.6.1"] ∧
    ("10.0.6.1" ∈ (set_light c6_conf (fun _ => true) c6_parent c6_data).requests.map
        Prod.fst ↔
      ∃ cid ∈ ["g6", "h6"], (child_endpoint c6_conf cid).map Prod.fst = some "10.0.6.1") ∧
    ((alookup (set_light c6_conf (fun _ => true) c6_parent c6_data).requests
        "10.0.6.1").bind (fun d => alookup d 2) =
      if ∃ cid ∈ ["g6", "h6"], child_endpoint c6_conf cid = some ("10.0.6.1", 2)
      then some c6_data else none) ∧
    (get_light_state c6_conf c6_net c6_parent).requests = ["10.0.6.1"] ∧
    (get_light_state c6_conf c6_net c6_parent).requests.Nodup := by
  have H := C6_endpoint_batching c6_conf (fun _ => true) c6_net c6_parent c6_data
    ["g6", "h6"] rfl
  exact ⟨rfl, H.1, by decide, H.2.1 "10.0.6.1", H.2.2.1 "10.0.6.1" 2, by decide,
    H.2.2.2.1⟩

/-! ### Claim C7 -/

/-- C7: after `set_light` on a light with children configured, the parent's
`reachable` is true iff at least one per-endpoint PUT succeeded; and the
endpoint writes issued do not depend on which PUTs succeed, so when one of
two endpoints fails the other endpoint's write is still issued. -/
theorem C7_reachable_iff_write_success (conf : Conf) (putOk : String → Bool) (light : Light)
    (data : Delta) (cids : List String)
    (h : light.protocol_cfg_linked_lights = some cids) :
    ((set_light conf putOk light data).light.state.reachable =
      some ((set_light conf putOk light data).requests.any (fun g => putOk g.1))) ∧
    ∀ putOk2 : String → Bool,
      (set_light conf putOk2 light data).requests =
        (set_light conf putOk light data).requests := by
  constructor
  · rw [set_light_linked conf putOk light data cids h]
  · intro putOk2
    rw [set_light_linked conf putOk light data cids h,
      set_light_linked conf putOk2 light data cids h]

def c7_g : Light :=
  { name := "g7", protocol_cfg_ip := some "10.0.7.1", protocol_cfg_light_nr := some 1 }

def c7_i : Light :=
  { name := "i7", protocol_cfg_ip := some "10.0.7.2", protocol_cfg_light_nr := some 1 }

def c7_conf : Conf := fun c =>
  if c = "g7" then some c7_g else if c = "i7" then some c7_i else none

def c7_parent : Light := { name := "v7", protocol_cfg_linked_lights := some ["g7", "i7"] }

def c7_putOk : String → Bool := fun ip => ip == "10.0.7.2"

theorem C7_reachable_iff_write_success_witness :
    c7_parent.protocol_cfg_linked_lights = some ["g7", "i7"] ∧
    ((set_light c7_conf c7_putOk c7_parent {}).light.state.reachable =
      some ((set_light c7_conf c7_putOk c7_parent {}).requests.any
        (fun g => c7_putOk g.1))) ∧
    (set_light c7_conf c7_putOk c7_parent {}).light.state.reachable = some true ∧
    (set_light c7_conf c7_putOk c7_parent {}).requests.map Prod.fst
      = ["10.0.7.1", "10.0.7.2"] ∧
    (set_light c7_conf (fun _ => false) c7_parent {}).requests =
      (set_light c7_conf c7_putOk c7_parent {}).requests := by
  have H := C7_reachable_iff_write_success c7_conf c7_putOk c7_parent {} ["g7", "i7"] rfl
  exact ⟨rfl, H.1, by decide, by decide, H.2 (fun _ => false)⟩

/-! ### Claim C8 -/

/-- C8: when the single GET to a physical endpoint fails during resolve,
every child grouped under that endpoint ends with cached
`reachable = false` and every other cached field unchanged; and the list
of GETs issued is independent of which endpoints fail, so the failure
neither prevents the reads to nor the processing of sibling endpoints. -/
theorem C8_endpoint_failure (conf : Conf) (net : String → Option GetResult) (light : Light)
    (cids : List String) (cid : String) (child : Light) (a : String) (ln : Int)
    (h : light.protocol_cfg_linked_lights = some cids)
    (hm : cid ∈ cids)
    (hc : conf cid = some child)
    (he : endpoint_of child = some (a, ln))
    (hf : net a = none) :
    ((get_light_state conf net light).conf cid =
      some { child with state := { child.state with reachable := some false } }) ∧
    ∀ net2 : String → Option GetResult,
      (get_light_state conf net2 light).requests =
        (get_light_state conf net light).requests := by
  have hce : child_endpoint conf cid = some (a, ln) := by
    simp [child_endpoint, hc, he]
  constructor
  · rw [get_conf_linked conf net light cids h]
    have hmem_up : (cid, ln) ∈ ep_upds conf cids a :=
      (mem_ep_upds conf cids a cid ln).mpr ⟨hm, hce⟩
    have hne : ep_upds conf cids a ≠ [] := by
      intro h0
      rw [h0] at hmem_up
      simp at hmem_up
    have hlk : alookup (build_ip_map conf cids) a = some (ep_upds conf cids a) := by
      rw [ip_map_alookup, if_neg hne]
    have hent : (a, ep_upds conf cids a) ∈ build_ip_map conf cids :=
      alookup_mem _ _ _ hlk
    exact network_fold_fail_at net a cid ln (build_ip_map conf cids) conf child
      (ep_upds conf cids a) (ip_map_keys_nodup conf cids) hent
      (ip_map_no_foreign conf cids a cid (by simp [hce]))
      hmem_up hf hc
  · intro net2
    rw [get_requests_linked conf net light cids h,
      get_requests_linked conf net2 light cids h]

def c8_g : Light :=
  { name := "g8", protocol_cfg_ip := some "10.0.8.1", protocol_cfg_light_nr := some 1,
    state := { on_ := some true, bri := some 33, reachable := some true } }

def c8_i : Light :=
  { name := "i8", protocol_cfg_ip := some "10.0.8.2", protocol_cfg_light_nr := some 1 }

def c8_conf : Conf := fun c =>
  if c = "g8" then some c8_g else if c = "i8" then some c8_i else none

def c8_parent : Light := { name := "v8", protocol_cfg_linked_lights := some ["g8", "i8"] }

def c8_net : String → Option GetResult := fun ip =>
  if ip == "10.0.8.2" then some { lights := [(1, { bri := some 5 })] } else none

theorem C8_endpoint_failure_witness :
    c8_parent.protocol_cfg_linked_lights = some ["g8", "i8"] ∧
    "g8" ∈ ["g8", "i8"] ∧
    c8_conf "g8" = some c8_g ∧
    endpoint_of c8_g = some ("10.0.8.1", 1) ∧
    c8_net "10.0.8.1" = none ∧
    ((get_light_state c8_conf c8_net c8_parent).conf "g8" =
      some { c8_g with state := { c8_g.state with reachable := some false } }) ∧
    (get_light_state c8_conf (fun _ => none) c8_parent).requests =
      (get_light_state c8_conf c8_net c8_parent).requests := by
  have H := C8_endpoint_failure c8_conf c8_net c8_parent ["g8", "i8"] "g8" c8_g
    "10.0.8.1" 1 rfl (by decide) rfl (by decide) (by decide)
  exact ⟨rfl, by decide, rfl, by decide, by decide, H.1, H.2 (fun _ => none)⟩

/-! ### Claim C9 -/

/-- The given light with its `linked_lights` configuration key replaced. -/
def with_linked (light : Light) (l : Option (List String)) : Light :=
  { light with protocol_cfg_linked_lights := l }

/-- C9: a child identifier in `linked_lights` that is not present in the
registry is silently skipped by both entry points: each call's observable
outcome (parent state, outbound requests, registry effect) is identical to
the call where the unresolved identifiers have been removed from the list,
and the remaining identifiers are all still processed; no error path
exists. -/
theorem C9_unresolved_skipped (conf : Conf) (putOk : String → Bool)
    (net : String → Option GetResult) (light : Light) (data : Delta)
    (cids : List String) :
    ((set_light conf putOk (with_linked light (some cids)) data).light.state =
      (set_light conf putOk
        (with_linked light (some (cids.filter (fun c => (conf c).isSome)))) data).light.state) ∧
    ((set_light conf putOk (with_linked light (some cids)) data).requests =
      (set_light conf putOk
        (with_linked light (some (cids.filter (fun c => (conf c).isSome)))) data).requests) ∧
    ((get_light_state conf net (with_linked light (some cids))).light.state =
      (get_light_state conf net
        (with_linked light (some (cids.filter (fun c => (conf c).isSome))))).light.state) ∧
    ((get_light_state conf net (with_linked light (some cids))).requests =
      (get_light_state conf net
        (with_linked light (some (cids.filter (fun c => (conf c).isSome))))).requests) ∧
    (∀ c, (get_light_state conf net (with_linked light (some cids))).conf c =
      (get_light_state conf net
        (with_linked light (some (cids.filter (fun c => (conf c).isSome))))).conf c) := by
  have hB : build_batch conf (cids.filter (fun c => (conf c).isSome)) data =
      build_batch conf cids data := by
    rw [build_batch_eq_ep, build_batch_eq_ep, ep_build_filter_resolved]
  have hE : build_ip_map conf (cids.filter (fun c => (conf c).isSome)) =
      build_ip_map conf cids := by
    rw [build_ip_map_eq_ep, build_ip_map_eq_ep, ep_build_filter_resolved]
  have hd : ∀ c, (((build_ip_map conf cids).foldl (process_ip_group net) conf) c).isSome
      = (conf c).isSome :=
    fun c => network_fold_isSome net (build_ip_map conf cids) conf c
  have hA : agg_counts ((build_ip_map conf cids).foldl (process_ip_group net) conf)
        (cids.filter (fun c => (conf c).isSome)) =
      agg_counts ((build_ip_map conf cids).foldl (process_ip_group net) conf) cids := by
    rw [agg_counts_formula, agg_counts_formula,
      states_of_filter_of_isSome conf _ hd cids]
  refine ⟨?_, ?_, ?_, ?_, ?_⟩
  · rw [set_light_linked conf putOk (with_linked light (some cids)) data cids rfl,
      set_light_linked conf putOk
        (with_linked light (some (cids.filter (fun c => (conf c).isSome)))) data
        (cids.filter (fun c => (conf c).isSome)) rfl,
      hB]
    rfl
  · rw [set_light_linked conf putOk (with_linked light (some cids)) data cids rfl,
      set_light_linked conf putOk
        (with_linked light (some (cids.filter (fun c => (conf c).isSome)))) data
        (cids.filter (fun c => (conf c).isSome)) rfl,
      hB]
  · rw [get_light_linked conf net (with_linked light (some cids)) cids rfl,
      get_light_linked conf net
        (with_linked light (some (cids.filter (fun c => (conf c).isSome))))
        (cids.filter (fun c => (conf c).isSome)) rfl,
      hE, hA]
    split <;> rfl
  · rw [get_requests_linked conf net (with_linked light (some cids)) cids rfl,
      get_requests_linked conf net
        (with_linked light (some (cids.filter (fun c => (conf c).isSome))))
        (cids.filter (fun c => (conf c).isSome)) rfl,
      hE]
  · intro c
    rw [get_conf_linked conf net (with_linked light (some cids)) cids rfl,
      get_conf_linked conf net
        (with_linked light (some (cids.filter (fun c => (conf c).isSome))))
        (cids.filter (fun c => (conf c).isSome)) rfl,
      hE]

/-! ### Claim C10 -/

/-- C10: a resolved child whose protocol configuration holds the address
or channel key with a falsy value (empty address string, channel number
0) is excluded from endpoint batching exactly as if those keys were
absent — both entry points issue the same requests as with the keys
removed — the network phase never touches the child, and during resolve
the child still contributes its cached state to the final aggregation. -/
theorem C10_falsy_endpoint_keys (conf : Conf) (putOk : String → Bool)
    (net : String → Option GetResult) (light : Light) (data : Delta)
    (cids : List String) (cid : String) (child : Light)
    (h : light.protocol_cfg_linked_lights = some cids)
    (hm : cid ∈ cids)
    (hc : conf cid = some child)
    (hfalsy : child.protocol_cfg_ip = some "" ∨ child.protocol_cfg_light_nr = some 0) :
    ((set_light conf putOk light data).requests =
      (set_light (fun c => if c = cid then
          some { child with protocol_cfg_ip := none, protocol_cfg_light_nr := none }
        else conf c) putOk light data).requests) ∧
    ((get_light_state conf net light).requests =
      (get_light_state (fun c => if c = cid then
          some { child with protocol_cfg_ip := none, protocol_cfg_light_nr := none }
        else conf c) net light).requests) ∧
    ((get_light_state conf net light).conf cid = some child) ∧
    (child.state ∈ states_of ((get_light_state conf net light).conf) cids) := by
  have hend : endpoint_of child = none := by
    rcases hfalsy with hip | hnr
    · cases hlnr : child.protocol_cfg_light_nr <;> simp [endpoint_of, hip, hlnr]
    · cases hip2 : child.protocol_cfg_ip <;> simp [endpoint_of, hip2, hnr]
  have hcongr : ∀ c ∈ cids, child_endpoint conf c =
      child_endpoint (fun c => if c = cid then
        some { child with protocol_cfg_ip := none, protocol_cfg_light_nr := none }
      else conf c) c := by
    intro c _
    by_cases hcc : c = cid
    · subst hcc
      simp [child_endpoint, hc, hend]
      rfl
    · simp [child_endpoint, hcc]
  have huntouched : (get_light_state conf net light).conf cid = some child :=
    unbatched_untouched conf net light cid child hc hend
  refine ⟨?_, ?_, huntouched, ?_⟩
  · rw [set_light_linked conf putOk light data cids h,
      set_light_linked _ putOk light data cids h,
      build_batch_eq_ep, build_batch_eq_ep,
      ep_build_congr _ _ _ _ cids [] hcongr]
  · rw [get_requests_linked conf net light cids h,
      get_requests_linked _ net light cids h,
      build_ip_map_eq_ep, build_ip_map_eq_ep,
      ep_build_congr _ _ _ _ cids [] hcongr]
  · rw [states_of]
    exact List.mem_filterMap.mpr ⟨cid, hm, by rw [huntouched]; rfl⟩

def c10_z : Light :=
  { name := "z", protocol_cfg_ip := some "", protocol_cfg_light_nr := some 1,
    state := { bri := some 60, reachable := some true } }

def c10_y : Light :=
  { name := "y", protocol_cfg_ip := some "10.0.10.1", protocol_cfg_light_nr := some 1 }

def c10_conf : Conf := fun c =>
  if c = "z" then some c10_z else if c = "y" then some c10_y else none

def c10_parent : Light := { name := "v10", protocol_cfg_linked_lights := some ["z", "y"] }

def c10_net : String → Option GetResult := fun _ => none

theorem C10_falsy_endpoint_keys_witness :
    c10_parent.protocol_cfg_linked_lights = some ["z", "y"] ∧
    "z" ∈ ["z", "y"] ∧
    c10_conf "z" = some c10_z ∧
    (c10_z.protocol_cfg_ip = some "" ∨ c10_z.protocol_cfg_light_nr = some 0) ∧
    ((set_light c10_conf (fun _ => true) c10_parent {}).requests =
      (set_light (fun c => if c = "z" then
          some { c10_z with protocol_cfg_ip := none, protocol_cfg_light_nr := none }
        else c10_conf c) (fun _ => true) c10_parent {}).requests) ∧
    ((get_light_state c10_conf c10_net c10_parent).requests =
      (get_light_state (fun c => if c = "z" then
          some { c10_z with protocol_cfg_ip := none, protocol_cfg_light_nr := none }
        else c10_conf c) c10_net c10_parent).requests) ∧
    ((get_light_state c10_conf c10_net c10_parent).conf "z" = some c10_z) ∧
    (c10_z.state ∈ states_of ((get_light_state c10_conf c10_net c10_parent).conf)
      ["z", "y"]) := by
  have H := C10_falsy_endpoint_keys c10_conf (fun _ => true) c10_net c10_parent {}
    ["z", "y"] "z" c10_z rfl (by decide) rfl (Or.inl rfl)
  exact ⟨rfl, by decide, rfl, Or.inl rfl, H.1, H.2.1, H.2.2.1, H.2.2.2⟩

end Virtual
